import Mathlib

/-!
Shallow embedding of the analytics chart engine of
`src/components/CreatorStudio.tsx` (the series synthesizer
`buildTargetCumulativeTimeline`, the axis scale planner `getNiceStep` /
`yScaleMax`, the coordinate projector `chartPoints` / `onMouseMove`, and the
date-axis labeler `xAxisTicks`).

Modelling conventions:
* JS `number` is modelled as `ℚ` (exact arithmetic idealization of IEEE
  doubles; every claim settled here is about the algorithm, not about
  floating-point rounding of the host).
* `Math.round x` is `⌊x + 1/2⌋` (JS rounds half toward +∞), `Math.floor` is
  `Int.floor`, `Math.ceil` is `Int.ceil`, `Math.abs` is `|·|`,
  `Math.max` / `Math.min` are `max` / `min`.
* `Math.sin` is an uninterpreted parameter `jsSin : ℚ → ℚ` passed to the
  synthesizer; theorems quantify over it, so they hold for any sine
  implementation.
* `Math.pow(10, Math.floor(Math.log10 r))` for `r > 0` is `(10:ℚ) ^ Int.log 10 r`
  (`Int.log 10 r` is exactly `⌊log₁₀ r⌋` for positive rationals).
* JS array indexing out of range yields `undefined`; the model's `jsIndex`
  returns `0` there (the situation is unreachable for the nonempty
  segment-multiplier lists the component uses).
* Optional fields (`dailyDrift?`, `segmentMultipliers?`) are `Option`s, and the
  JS truthiness tests on them are modelled explicitly.
-/

/-- `Math.round` of JS: round half toward positive infinity. -/
def jround (x : ℚ) : ℤ := ⌊x + 1 / 2⌋

/-- A point of the synthesized series (source fields `day`, `value`, `isWeek`). -/
structure SeriesPoint where
  day : ℕ
  value : ℚ
  isWeek : Bool
deriving DecidableEq

/-- The shape configuration argument of `buildTargetCumulativeTimeline`
(source lines 363-369). -/
structure ShapeConfig where
  dailyBase : ℚ
  dailyWave : ℚ
  weeklyBonus : ℚ
  dailyDrift : Option ℚ
  segmentMultipliers : Option (List ℚ)
deriving DecidableEq

/-- JS array indexing with an integer index; out of range gives `undefined`,
modelled as `0`. -/
def jsIndex (l : List ℚ) (i : ℤ) : ℚ :=
  if h : 0 ≤ i ∧ i.toNat < l.length then l.get ⟨i.toNat, h.2⟩ else 0

/-- The raw increment for array position `index` (source lines 376-386: the
body of the `Array.from` callback computing `increments`). -/
def increment (jsSin : ℚ → ℚ) (length : ℕ) (config : ShapeConfig) (index : ℕ) : ℚ :=
  let segmentMultipliers := config.segmentMultipliers.getD [1]
  let segmentSize : ℤ := ⌈((length : ℚ) - 1) / (segmentMultipliers.length : ℚ)⌉
  let day := index + 2
  let wave : ℤ := jround (|jsSin ((index : ℚ) / (9 / 2))| * config.dailyWave)
  let drift : ℚ :=
    match config.dailyDrift with
    | none => 0
    | some d => if d = 0 then 0 else d * (index : ℚ)
  let dailyStep : ℚ := config.dailyBase + (wave : ℚ) + drift
  let weeklyBoost : ℚ := if day % 7 = 0 then config.weeklyBonus else 0
  let segmentIndex : ℤ :=
    min ⌊(index : ℚ) / (segmentSize : ℚ)⌋ ((segmentMultipliers.length : ℤ) - 1)
  let segmentMultiplier : ℚ := jsIndex segmentMultipliers segmentIndex
  let jitter : ℚ := 1 + (((index % 5 : ℕ) : ℚ) - 2) * (4 / 100)
  max 1 ((dailyStep + weeklyBoost) * segmentMultiplier * jitter)

/-- The `increments` array (source line 376: `Array.from` of `length - 1`
raw increments). -/
def incrementsList (jsSin : ℚ → ℚ) (length : ℕ) (config : ShapeConfig) : List ℚ :=
  (List.range (length - 1)).map (increment jsSin length config)

/-- The `sum` of the raw increments (source line 387). -/
def incrementsSum (jsSin : ℚ → ℚ) (length : ℕ) (config : ShapeConfig) : ℚ :=
  (incrementsList jsSin length config).sum

/-- The `scale` factor (source line 388: `sum > 0 ? target / sum : 0`). -/
def incrementScale (jsSin : ℚ → ℚ) (length : ℕ) (target : ℚ) (config : ShapeConfig) : ℚ :=
  if 0 < incrementsSum jsSin length config then target / incrementsSum jsSin length config else 0

/-- The series synthesizer `buildTargetCumulativeTimeline` (source lines
360-400).  The mutable accumulation `total += increments[index-1] * scale` is
modelled by its closed form: at position `index` the accumulator holds the sum
of the first `index` scaled increments. -/
def buildTargetCumulativeTimeline (jsSin : ℚ → ℚ) (length : ℕ) (target : ℚ)
    (config : ShapeConfig) : List SeriesPoint :=
  if length ≤ 1 then
    [{ day := 1, value := 0, isWeek := true }]
  else
    let scale := incrementScale jsSin length target config
    (List.range length).map (fun index =>
      let day := index + 1
      if index = 0 then
        { day := day, value := 0, isWeek := decide (day % 7 = 0) }
      else
        let total := ((List.range index).map
          (fun k => increment jsSin length config k * scale)).sum
        let value := if index = length - 1 then target else max 0 ((jround total : ℤ) : ℚ)
        { day := day, value := value, isWeek := decide (day % 7 = 0) })

/-- Source constant `chartWidth` (line 565). -/
def chartWidth : ℚ := 720

/-- Source constant `chartPaddingLeft` (line 567). -/
def chartPaddingLeft : ℚ := 70

/-- Source constant `chartPaddingRight` (line 568). -/
def chartPaddingRight : ℚ := 24

/-- Source constant `minStep` (line 571). -/
def minStep : ℚ := 18

/-- `chartSvgWidth` (source lines 572-575). -/
def chartSvgWidth (timelineLength : ℕ) : ℚ :=
  max chartWidth
    (chartPaddingLeft + chartPaddingRight +
      ((max 0 ((timelineLength : ℤ) - 1) : ℤ) : ℚ) * minStep)

/-- `chartPlotWidth` (source line 576). -/
def chartPlotWidth (timelineLength : ℕ) : ℚ :=
  chartSvgWidth timelineLength - chartPaddingLeft - chartPaddingRight

/-- The horizontal per-point `step` (source line 603). -/
def chartStep (timelineLength : ℕ) : ℚ :=
  if 1 < timelineLength then chartPlotWidth timelineLength / ((timelineLength : ℚ) - 1)
  else chartPlotWidth timelineLength

/-- The x coordinate of `chartPoints[index]` (source line 606). -/
def chartPointX (timelineLength : ℕ) (index : ℕ) : ℚ :=
  chartPaddingLeft + (index : ℚ) * chartStep timelineLength

/-- The clamped pointer x of `onMouseMove` (source lines 839-842). -/
def clampedPointerX (timelineLength : ℕ) (relativeX : ℚ) : ℚ :=
  max chartPaddingLeft (min (chartSvgWidth timelineLength - chartPaddingRight) relativeX)

/-- The `safeIndex` computed by `onMouseMove` from an x already in SVG user
units (source lines 839-844: clamp, round, clamp). -/
def hoverIndexFromSvgX (timelineLength : ℕ) (relativeX : ℚ) : ℤ :=
  let clampedX := clampedPointerX timelineLength relativeX
  let index := jround ((clampedX - chartPaddingLeft) / chartStep timelineLength)
  max 0 (min ((timelineLength : ℤ) - 1) index)

/-- The full `onMouseMove` index computation (source lines 834-845): the
element-local pointer offset is rescaled to SVG user units and fed to the
clamp / round / clamp pipeline. -/
def onMouseMoveIndex (timelineLength : ℕ) (clientOffsetX boundsWidth : ℚ) : ℤ :=
  let scaleX := chartSvgWidth timelineLength / boundsWidth
  hoverIndexFromSvgX timelineLength (clientOffsetX * scaleX)

/-- `getNiceStep` (source lines 580-589).  `Math.pow(10, Math.floor(Math.log10
roughStep))` is modelled as `(10:ℚ) ^ Int.log 10 roughStep`. -/
def getNiceStep (range : ℚ) (ticks : ℕ) : ℚ :=
  if range ≤ 0 then 1
  else
    let roughStep := range / ((ticks : ℚ) - 1)
    let magnitude : ℚ := (10 : ℚ) ^ (Int.log 10 roughStep)
    let residual := roughStep / magnitude
    if residual ≤ 1 then 1 * magnitude
    else if residual ≤ 2 then 2 * magnitude
    else if residual ≤ 5 then 5 * magnitude
    else 10 * magnitude

/-- `niceMax` (source line 596). -/
def niceMax (maxTimelineValue : ℚ) (ticks : ℕ) : ℚ :=
  (⌈maxTimelineValue / getNiceStep maxTimelineValue ticks⌉ : ℚ) *
    getNiceStep maxTimelineValue ticks

/-- `yScaleMax` (source line 598: `axisMax ? Math.max(axisMax,
maxTimelineValue) : niceMax`; the JS truthiness test is false for an absent
override and for a zero override). -/
def yScaleMax (maxTimelineValue : ℚ) (ticks : ℕ) (axisMax : Option ℚ) : ℚ :=
  match axisMax with
  | none => niceMax maxTimelineValue ticks
  | some a => if a = 0 then niceMax maxTimelineValue ticks else max a maxTimelineValue

/-- A Gregorian calendar date, for the JS `Date` day arithmetic of the
x-axis labeler. -/
structure CivilDate where
  year : ℕ
  month : ℕ
  day : ℕ
deriving DecidableEq

/-- Gregorian leap-year rule. -/
def isLeapYear (y : ℕ) : Bool :=
  (y % 4 == 0 && y % 100 != 0) || (y % 400 == 0)

/-- Number of days in a month. -/
def daysInMonth (y m : ℕ) : ℕ :=
  if m = 2 then (if isLeapYear y then 29 else 28)
  else if m = 4 ∨ m = 6 ∨ m = 9 ∨ m = 11 then 30
  else 31

/-- The calendar successor of a date. -/
def nextDay (d : CivilDate) : CivilDate :=
  if d.day < daysInMonth d.year d.month then ⟨d.year, d.month, d.day + 1⟩
  else if d.month < 12 then ⟨d.year, d.month + 1, 1⟩
  else ⟨d.year + 1, 1, 1⟩

/-- JS `date.setDate(start.getDate() + offset)` for a nonnegative offset:
advance the calendar `offset` days (source lines 631-632). -/
def addDays : CivilDate → ℕ → CivilDate
  | d, 0 => d
  | d, n + 1 => nextDay (addDays d n)

/-- `String(x).padStart(2, '0')` for a numeral. -/
def pad2 (n : ℕ) : String :=
  if n < 10 then ("0") ++ toString n else toString n

/-- `formatFullDate` (source lines 619-620): `YYYY-MM-DD`. -/
def formatFullDate (d : CivilDate) : String :=
  toString d.year ++ ("-") ++ pad2 d.month ++ ("-") ++ pad2 d.day

/-- An x-axis tick (source line 633: `{ index: offset, label }`). -/
structure AxisTick where
  index : ℕ
  label : String
deriving DecidableEq

/-- The tick offsets loop plus final-day append (source lines 623-629).  The
`for (let i = 0; i < timelineLength; i += tickInterval)` loop is modelled by
`List.range' 0 ⌈length/interval⌉ interval`; the JS test
`tickOffsets[tickOffsets.length-1] !== timelineLength - 1` (which compares
against `undefined` when the list is empty) is `getLast? ≠ some (length-1)`. -/
def tickOffsets (timelineLength tickInterval : ℕ) : List ℕ :=
  let base := List.range' 0 ((timelineLength + tickInterval - 1) / tickInterval) tickInterval
  if 0 < timelineLength ∧ base.getLast? ≠ some (timelineLength - 1) then
    base ++ [timelineLength - 1]
  else base

/-- `timelineStart` (source line 618): 2025-11-01. -/
def timelineStart : CivilDate := ⟨2025, 11, 1⟩

/-- `xAxisTicks` (source lines 630-634), with the epoch and tick interval as
parameters (the source fixes them to `timelineStart` and `7`). -/
def xAxisTicks (timelineLength tickInterval : ℕ) (epoch : CivilDate) : List AxisTick :=
  (tickOffsets timelineLength tickInterval).map
    (fun offset => ⟨offset, formatFullDate (addDays epoch offset)⟩)

/-- A flat shape configuration (constant base increment, no wave, no bonus,
no drift, default multipliers), used for concrete evaluations. -/
def flatShape : ShapeConfig := ⟨10, 0, 0, none, none⟩

/-- The shape configuration of the spec's concrete synthesis scenario:
`{dailyBase:10, dailyWave:0, weeklyBonus:0, dailyDrift:0, segmentMultipliers:[1]}`. -/
def scenarioShape : ShapeConfig := ⟨10, 0, 0, some 0, some [1]⟩

/-! ## Helper lemmas -/

theorem jround_mono {x y : ℚ} (h : x ≤ y) : jround x ≤ jround y :=
  Int.floor_le_floor (by linarith)

theorem jround_zero : jround 0 = 0 := by norm_num [jround]

theorem jsIndex_singleton (a : ℚ) : jsIndex [a] 0 = a := by simp [jsIndex]

theorem increment_flat8 (f : ℚ → ℚ) (k : ℕ) (hk : k < 7) :
    increment f 8 flatShape k = 10 * (1 + (((k % 5 : ℕ) : ℚ) - 2) * (4 / 100)) := by
  have hfl : ⌊(k : ℚ) / (7 : ℚ)⌋ = 0 := by
    rw [Int.floor_eq_zero_iff]
    refine ⟨by positivity, ?_⟩
    rw [div_lt_one (by norm_num)]
    exact_mod_cast hk
  have hj : (1 : ℚ) ≤ 10 * (1 + (((k % 5 : ℕ) : ℚ) - 2) * (1 / 25)) := by
    have h0 : (0 : ℚ) ≤ ((k % 5 : ℕ) : ℚ) := Nat.cast_nonneg _
    linarith
  simp only [increment, flatShape, Option.getD_none, List.length_singleton, mul_zero,
    jround_zero, ite_self, Int.cast_zero, Nat.cast_one]
  norm_num
  rw [hfl]
  simp only [min_self, jsIndex_singleton, add_zero, mul_one, one_mul]
  rw [max_eq_right hj]

theorem increment_scenario5 (f : ℚ → ℚ) (k : ℕ) (hk : k < 4) :
    increment f 5 scenarioShape k = 10 * (1 + (((k % 5 : ℕ) : ℚ) - 2) * (4 / 100)) := by
  have hfl : ⌊(k : ℚ) / (4 : ℚ)⌋ = 0 := by
    rw [Int.floor_eq_zero_iff]
    refine ⟨by positivity, ?_⟩
    rw [div_lt_one (by norm_num)]
    exact_mod_cast hk
  have hj : (1 : ℚ) ≤ 10 * (1 + (((k % 5 : ℕ) : ℚ) - 2) * (1 / 25)) := by
    have h0 : (0 : ℚ) ≤ ((k % 5 : ℕ) : ℚ) := Nat.cast_nonneg _
    linarith
  simp only [increment, scenarioShape, Option.getD_some, List.length_singleton, mul_zero,
    jround_zero, ite_self, Int.cast_zero, Nat.cast_one]
  norm_num
  rw [hfl]
  simp only [min_self, jsIndex_singleton, add_zero, mul_one, one_mul]
  rw [max_eq_right hj]

theorem incrementScale_scenario5 (f : ℚ → ℚ) :
    incrementScale f 5 100 scenarioShape = 125 / 49 := by
  have hsum : incrementsSum f 5 scenarioShape = 196 / 5 := by
    have e0 := increment_scenario5 f 0 (by norm_num)
    have e1 := increment_scenario5 f 1 (by norm_num)
    have e2 := increment_scenario5 f 2 (by norm_num)
    have e3 := increment_scenario5 f 3 (by norm_num)
    have hr : List.range 4 = [0, 1, 2, 3] := rfl
    simp only [incrementsSum, incrementsList]
    norm_num [hr, e0, e1, e2, e3]
  unfold incrementScale
  rw [hsum]
  norm_num

theorem incrementScale_flat8 : incrementScale (fun _ => 0) 8 (3 / 5) flatShape = 3 / 344 := by
  have hsum : incrementsSum (fun _ => 0) 8 flatShape = 344 / 5 := by
    have e0 := increment_flat8 (fun _ => 0) 0 (by norm_num)
    have e1 := increment_flat8 (fun _ => 0) 1 (by norm_num)
    have e2 := increment_flat8 (fun _ => 0) 2 (by norm_num)
    have e3 := increment_flat8 (fun _ => 0) 3 (by norm_num)
    have e4 := increment_flat8 (fun _ => 0) 4 (by norm_num)
    have e5 := increment_flat8 (fun _ => 0) 5 (by norm_num)
    have e6 := increment_flat8 (fun _ => 0) 6 (by norm_num)
    have hr : List.range 7 = [0, 1, 2, 3, 4, 5, 6] := rfl
    simp only [incrementsSum, incrementsList]
    norm_num [hr, e0, e1, e2, e3, e4, e5, e6]
  unfold incrementScale
  rw [hsum]
  norm_num

theorem jround_natCast (n : ℕ) : jround (n : ℚ) = n := by
  unfold jround
  refine Int.floor_eq_iff.mpr ⟨by push_cast; linarith, by push_cast; linarith⟩

theorem one_le_increment (jsSin : ℚ → ℚ) (length : ℕ) (config : ShapeConfig) (index : ℕ) :
    (1 : ℚ) ≤ increment jsSin length config index := by
  simp only [increment]
  exact le_max_left _ _

theorem length_le_sum_of_one_le (l : List ℚ) (h : ∀ x ∈ l, (1 : ℚ) ≤ x) :
    (l.length : ℚ) ≤ l.sum := by
  induction l with
  | nil => simp
  | cons a t ih =>
      have ha := h a (by simp)
      have ht := ih (fun x hx => h x (by simp [hx]))
      simp only [List.length_cons, List.sum_cons]
      push_cast
      linarith

theorem getNiceStep_pos (range : ℚ) (ticks : ℕ) : 0 < getNiceStep range ticks := by
  simp only [getNiceStep]
  have hmag : (0 : ℚ) < (10 : ℚ) ^ (Int.log 10 (range / ((ticks : ℚ) - 1))) :=
    zpow_pos (by norm_num) _
  split_ifs <;> linarith

theorem le_niceMax (m : ℚ) (ticks : ℕ) : m ≤ niceMax m ticks := by
  have hs := getNiceStep_pos m ticks
  have h1 : m / getNiceStep m ticks ≤ (⌈m / getNiceStep m ticks⌉ : ℚ) := Int.le_ceil _
  unfold niceMax
  exact (div_le_iff₀ hs).mp h1

theorem buildValues_eq (jsSin : ℚ → ℚ) (L : ℕ) (t : ℚ) (c : ShapeConfig) (hL : ¬ L ≤ 1) :
    (buildTargetCumulativeTimeline jsSin L t c).map SeriesPoint.value
      = (List.range L).map (fun index =>
          if index = 0 then 0
          else if index = L - 1 then t
          else max 0 ((jround (((List.range index).map
            (fun k => increment jsSin L c k * incrementScale jsSin L t c)).sum) : ℤ) : ℚ)) := by
  unfold buildTargetCumulativeTimeline
  rw [if_neg hL, List.map_map]
  refine List.map_congr_left (fun i _ => ?_)
  by_cases h : i = 0 <;> simp [h]

theorem mem_of_getLast?_eq {α : Type} {l : List α} {a : α} (h : l.getLast? = some a) :
    a ∈ l := by
  obtain ⟨hne, rfl⟩ := List.mem_getLast?_eq_getLast (Option.mem_def.mpr h)
  exact List.getLast_mem hne

theorem tickOffsets_base_mem (len t k : ℕ) (ht : 1 ≤ t) (hlen : 1 ≤ len)
    (hk : k * t < len) : k * t ∈ List.range' 0 ((len + t - 1) / t) t := by
  rw [List.mem_range']
  refine ⟨k, ?_, by ring⟩
  rw [Nat.lt_iff_add_one_le, Nat.le_div_iff_mul_le (by omega : 0 < t)]
  have h1 : k * t ≤ len - 1 := Nat.le_sub_one_of_lt hk
  have h2 : k * t + t ≤ (len - 1) + t := Nat.add_le_add_right h1 t
  have h3 : (k + 1) * t = k * t + t := by ring
  have h4 : (len - 1) + t = len + t - 1 := by omega
  rw [h3, ← h4]
  exact h2

theorem tickOffsets_base_lt (len t j : ℕ) (ht : 1 ≤ t) (hlen : 1 ≤ len)
    (hj : j < (len + t - 1) / t) : t * j < len := by
  rw [Nat.lt_iff_add_one_le, Nat.le_div_iff_mul_le (by omega : 0 < t)] at hj
  have h3 : (j + 1) * t = j * t + t := by ring
  rw [h3] at hj
  have h4 : j * t ≤ len - 1 := by omega
  have h5 : t * j = j * t := by ring
  omega

/-! ## Claim theorems -/

/-- C1: for every length ≥ 2, target ≥ 0 and shape configuration, the last
point of the series returned by `buildTargetCumulativeTimeline` has value
exactly `target`. -/
theorem c1_target_exact (jsSin : ℚ → ℚ) (length : ℕ) (target : ℚ) (config : ShapeConfig)
    (hL : 2 ≤ length) (ht : 0 ≤ target) :
    ((buildTargetCumulativeTimeline jsSin length target config).map SeriesPoint.value).getLast?
      = some target := by
  obtain ⟨n, rfl⟩ : ∃ n, length = n + 2 := ⟨length - 2, by omega⟩
  unfold buildTargetCumulativeTimeline
  rw [if_neg (by omega)]
  rw [List.map_map, List.range_succ, List.map_append]
  simp

/-- Witness for C1 at the spec's concrete scenario. -/
theorem c1_target_exact_witness :
    ((buildTargetCumulativeTimeline (fun _ => 0) 5 100 scenarioShape).map
        SeriesPoint.value).getLast? = some 100 :=
  c1_target_exact (fun _ => 0) 5 100 scenarioShape (by norm_num) (by norm_num)

/-- C6: for every length ≤ 1, target and shape configuration,
`buildTargetCumulativeTimeline` returns exactly the single point
`{day := 1, value := 0, isWeek := true}` (the degenerate branch; no increment
and no division is evaluated on this path). -/
theorem c6_degenerate_single_point (jsSin : ℚ → ℚ) (length : ℕ) (target : ℚ)
    (config : ShapeConfig) (h : length ≤ 1) :
    buildTargetCumulativeTimeline jsSin length target config
      = [{ day := 1, value := 0, isWeek := true }] := by
  unfold buildTargetCumulativeTimeline
  rw [if_pos h]

/-- Witness for C6 at length 0. -/
theorem c6_degenerate_single_point_witness :
    buildTargetCumulativeTimeline (fun _ => 0) 0 7 flatShape
      = [{ day := 1, value := 0, isWeek := true }] :=
  c6_degenerate_single_point (fun _ => 0) 0 7 flatShape (by norm_num)

/-- C7: for every series length ≥ 1 and every raw pointer x (and rendered
width), the `onMouseMove` inverse mapping produces an index in
`[0, length-1]`. -/
theorem c7_hover_index_in_range (length : ℕ) (clientOffsetX boundsWidth : ℚ)
    (h : 1 ≤ length) :
    0 ≤ onMouseMoveIndex length clientOffsetX boundsWidth ∧
      onMouseMoveIndex length clientOffsetX boundsWidth ≤ (length : ℤ) - 1 := by
  simp only [onMouseMoveIndex, hoverIndexFromSvgX]
  refine ⟨le_max_left _ _, max_le (by omega) (min_le_left _ _)⟩

/-- Witness for C7 with a pointer position far outside the plot. -/
theorem c7_hover_index_in_range_witness :
    0 ≤ onMouseMoveIndex 68 (-500) 720 ∧ onMouseMoveIndex 68 (-500) 720 ≤ (68 : ℤ) - 1 :=
  c7_hover_index_in_range 68 (-500) 720 (by norm_num)

/-- C10: for every length ≥ 2 and every shape configuration, each raw
increment is ≥ 1, so the increment sum is ≥ length-1 > 0 and the
zero-sum fallback of the scale computation is unreachable: the scale always
equals `target / sum`. -/
theorem c10_increments_positive (jsSin : ℚ → ℚ) (length : ℕ) (config : ShapeConfig)
    (h2 : 2 ≤ length) :
    (∀ q ∈ incrementsList jsSin length config, (1 : ℚ) ≤ q) ∧
      (length : ℚ) - 1 ≤ incrementsSum jsSin length config ∧
      0 < incrementsSum jsSin length config ∧
      ∀ target : ℚ, incrementScale jsSin length target config
        = target / incrementsSum jsSin length config := by
  have hmem : ∀ q ∈ incrementsList jsSin length config, (1 : ℚ) ≤ q := by
    intro q hq
    obtain ⟨i, _, rfl⟩ := List.mem_map.mp hq
    exact one_le_increment jsSin length config i
  have hlen : (incrementsList jsSin length config).length = length - 1 := by
    simp [incrementsList]
  have hsum : (length : ℚ) - 1 ≤ incrementsSum jsSin length config := by
    have hbase := length_le_sum_of_one_le _ hmem
    rw [hlen, Nat.cast_sub (by omega)] at hbase
    exact hbase
  have hpos : 0 < incrementsSum jsSin length config := by
    have hcast : (2 : ℚ) ≤ (length : ℚ) := by exact_mod_cast h2
    linarith
  refine ⟨hmem, hsum, hpos, fun target => ?_⟩
  unfold incrementScale
  rw [if_pos hpos]

/-- Witness for C10 at length 2 with a flat shape. -/
theorem c10_increments_positive_witness :
    0 < incrementsSum (fun _ => 0) 2 flatShape :=
  (c10_increments_positive (fun _ => 0) 2 flatShape (by norm_num)).2.2.1

/-- C3: for every series length ≥ 2 and every index in range, projecting the
index to its x pixel (`chartPoints`) and feeding that x to the `onMouseMove`
clamp / round / clamp pipeline recovers the index exactly. -/
theorem c3_grid_roundtrip (length index : ℕ) (hL : 2 ≤ length) (hi : index < length) :
    hoverIndexFromSvgX length (chartPointX length index) = index := by
  have hsvg : chartWidth ≤ chartSvgWidth length := le_max_left _ _
  have hplot : 0 < chartPlotWidth length := by
    unfold chartPlotWidth
    unfold chartWidth at hsvg
    unfold chartPaddingLeft chartPaddingRight
    linarith
  have hl1 : (0 : ℚ) < (length : ℚ) - 1 := by
    have : (2 : ℚ) ≤ (length : ℚ) := by exact_mod_cast hL
    linarith
  have hstep : chartStep length = chartPlotWidth length / ((length : ℚ) - 1) := by
    unfold chartStep
    rw [if_pos (by omega)]
  have hstep_pos : 0 < chartStep length := by
    rw [hstep]; positivity
  have hprod : ((length : ℚ) - 1) * chartStep length = chartPlotWidth length := by
    rw [hstep]; field_simp
  have hidx : (index : ℚ) ≤ (length : ℚ) - 1 := by
    have : (index : ℚ) + 1 ≤ (length : ℚ) := by exact_mod_cast hi
    linarith
  have hx_lo : chartPaddingLeft ≤ chartPointX length index := by
    have h0 : 0 ≤ (index : ℚ) * chartStep length :=
      mul_nonneg (Nat.cast_nonneg _) hstep_pos.le
    unfold chartPointX
    linarith
  have hx_hi : chartPointX length index ≤ chartSvgWidth length - chartPaddingRight := by
    have hmul : (index : ℚ) * chartStep length ≤ ((length : ℚ) - 1) * chartStep length :=
      mul_le_mul_of_nonneg_right hidx hstep_pos.le
    have hplotdef : chartPlotWidth length
        = chartSvgWidth length - chartPaddingLeft - chartPaddingRight := rfl
    unfold chartPointX
    linarith [hprod]
  have hclamp : clampedPointerX length (chartPointX length index) = chartPointX length index := by
    unfold clampedPointerX
    rw [min_eq_right hx_hi, max_eq_right hx_lo]
  have hdiv : (chartPointX length index - chartPaddingLeft) / chartStep length = (index : ℚ) := by
    unfold chartPointX
    field_simp
  simp only [hoverIndexFromSvgX]
  rw [hclamp, hdiv, jround_natCast]
  have hzi : (index : ℤ) ≤ (length : ℤ) - 1 := by omega
  rw [min_eq_right hzi, max_eq_right (Int.ofNat_nonneg index)]

/-- Witness for C3 at length 5, index 3. -/
theorem c3_grid_roundtrip_witness :
    hoverIndexFromSvgX 5 (chartPointX 5 3) = 3 :=
  c3_grid_roundtrip 5 3 (by norm_num) (by norm_num)

/-- C5: for every maxValue ≥ 0 and tickCount ≥ 2, the planned `yScaleMax` is
at least `maxValue`; and when a nonzero ceiling override exceeding `maxValue`
is supplied, `yScaleMax` equals the override. -/
theorem c5_axis_ceiling (maxValue : ℚ) (ticks : ℕ) (axisMax : Option ℚ)
    (hm : 0 ≤ maxValue) (ht : 2 ≤ ticks) :
    maxValue ≤ yScaleMax maxValue ticks axisMax ∧
      ∀ a : ℚ, axisMax = some a → maxValue < a → yScaleMax maxValue ticks axisMax = a := by
  constructor
  · cases axisMax with
    | none => exact le_niceMax _ _
    | some a =>
        by_cases h : a = 0
        · simp only [yScaleMax]
          rw [if_pos h]
          exact le_niceMax _ _
        · simp only [yScaleMax]
          rw [if_neg h]
          exact le_max_right _ _
  · rintro a rfl hlt
    simp only [yScaleMax]
    rw [if_neg (by intro h; rw [h] at hlt; linarith), max_eq_left hlt.le]

/-- Witness for C5 at the spec's axis scenario with an override of 30000. -/
theorem c5_axis_ceiling_witness :
    (23450 : ℚ) ≤ yScaleMax 23450 5 (some 30000) ∧ yScaleMax 23450 5 (some 30000) = 30000 :=
  ⟨(c5_axis_ceiling 23450 5 (some 30000) (by norm_num) (by norm_num)).1,
   (c5_axis_ceiling 23450 5 (some 30000) (by norm_num) (by norm_num)).2 30000 rfl (by norm_num)⟩

/-- C4 (counterexample): at length 1 the synthesizer returns the degenerate
point with `isWeek = true` although its day, 1, is not divisible by 7 — so
the claimed equivalence fails on the degenerate single point. -/
theorem c4_week_flag_cex :
    buildTargetCumulativeTimeline (fun _ => 0) 1 0 flatShape
        = [{ day := 1, value := 0, isWeek := true }] ∧
      ¬ ((1 : ℕ) % 7 = 0) := by
  exact ⟨by decide, by decide⟩

/-- C4 (amended): for every length ≥ 2 (the non-degenerate case), every
emitted point satisfies `isWeek = (day % 7 = 0)`. -/
theorem c4_week_flag (jsSin : ℚ → ℚ) (length : ℕ) (target : ℚ) (config : ShapeConfig)
    (hL : 2 ≤ length) :
    ∀ p ∈ buildTargetCumulativeTimeline jsSin length target config,
      p.isWeek = decide (p.day % 7 = 0) := by
  intro p hp
  unfold buildTargetCumulativeTimeline at hp
  rw [if_neg (by omega)] at hp
  obtain ⟨i, hi, rfl⟩ := List.mem_map.mp hp
  by_cases h0 : i = 0 <;> simp [h0]

/-- Witness for C4 (amended) at the first point of a length-2 series. -/
theorem c4_week_flag_witness :
    ({ day := 1, value := 0, isWeek := false } : SeriesPoint).isWeek
      = decide (({ day := 1, value := 0, isWeek := false } : SeriesPoint).day % 7 = 0) :=
  c4_week_flag (fun _ => 0) 2 5 flatShape (by norm_num) _ (by decide)

/-- C2 (counterexample): with a flat shape, length 8 and the fractional
target 3/5 the value sequence is [0,0,0,0,0,0,1,3/5]: the forced final value
3/5 is smaller than the rounded penultimate value 1, so the sequence is not
non-decreasing. -/
theorem c2_monotonicity_cex :
    ¬ List.Chain' (· ≤ ·)
      ((buildTargetCumulativeTimeline (fun _ => 0) 8 (3 / 5) flatShape).map
        SeriesPoint.value) := by
  have e0 := increment_flat8 (fun _ => 0) 0 (by norm_num)
  have e1 := increment_flat8 (fun _ => 0) 1 (by norm_num)
  have e2 := increment_flat8 (fun _ => 0) 2 (by norm_num)
  have e3 := increment_flat8 (fun _ => 0) 3 (by norm_num)
  have e4 := increment_flat8 (fun _ => 0) 4 (by norm_num)
  have e5 := increment_flat8 (fun _ => 0) 5 (by norm_num)
  have e6 := increment_flat8 (fun _ => 0) 6 (by norm_num)
  have hr1 : List.range 1 = [0] := rfl
  have hr2 : List.range 2 = [0, 1] := rfl
  have hr3 : List.range 3 = [0, 1, 2] := rfl
  have hr4 : List.range 4 = [0, 1, 2, 3] := rfl
  have hr5 : List.range 5 = [0, 1, 2, 3, 4] := rfl
  have hr6 : List.range 6 = [0, 1, 2, 3, 4, 5] := rfl
  have hr7 : List.range 7 = [0, 1, 2, 3, 4, 5, 6] := rfl
  have hr8 : List.range 8 = [0, 1, 2, 3, 4, 5, 6, 7] := rfl
  have hlist : (buildTargetCumulativeTimeline (fun _ => 0) 8 (3 / 5) flatShape).map
      SeriesPoint.value = [0, 0, 0, 0, 0, 0, 1, 3 / 5] := by
    unfold buildTargetCumulativeTimeline
    rw [if_neg (by norm_num), incrementScale_flat8]
    simp only [hr8, hr1, hr2, hr3, hr4, hr5, hr6, hr7, List.map_cons, List.map_nil,
      List.sum_cons, List.sum_nil, e0, e1, e2, e3, e4, e5, e6]
    norm_num [jround]
  rw [hlist]
  intro h
  have h67 : (1 : ℚ) ≤ 3 / 5 := by
    simpa [List.chain'_cons] using h
  norm_num at h67

/-- C8: the spec's concrete synthesis scenario: length 5, target 100, flat
shape `{dailyBase:10, dailyWave:0, weeklyBonus:0, dailyDrift:0,
segmentMultipliers:[1]}` yields exactly the values [0, 23, 48, 73, 100] on
days [1, 2, 3, 4, 5] (for any sine implementation, since the wave amplitude
is zero). -/
theorem c8_concrete_series (jsSin : ℚ → ℚ) :
    (buildTargetCumulativeTimeline jsSin 5 100 scenarioShape).map (fun p => (p.day, p.value))
      = [(1, 0), (2, 23), (3, 48), (4, 73), (5, 100)] := by
  have e0 := increment_scenario5 jsSin 0 (by norm_num)
  have e1 := increment_scenario5 jsSin 1 (by norm_num)
  have e2 := increment_scenario5 jsSin 2 (by norm_num)
  have e3 := increment_scenario5 jsSin 3 (by norm_num)
  have hr5 : List.range 5 = [0, 1, 2, 3, 4] := rfl
  have hr1 : List.range 1 = [0] := rfl
  have hr2 : List.range 2 = [0, 1] := rfl
  have hr3 : List.range 3 = [0, 1, 2] := rfl
  have hr4 : List.range 4 = [0, 1, 2, 3] := rfl
  unfold buildTargetCumulativeTimeline
  rw [if_neg (by norm_num), incrementScale_scenario5 jsSin]
  simp only [hr5, hr1, hr2, hr3, hr4, List.map_cons, List.map_nil, List.sum_cons, List.sum_nil,
    e0, e1, e2, e3]
  norm_num [jround]

/-- C2 (amended): for every length, every shape configuration and every
integer target ≥ 0 (as a natural number; all targets the component passes are
rounded integers), the emitted value sequence is non-decreasing, including
the final forced-to-target step. -/
theorem c2_monotone_integer_target (jsSin : ℚ → ℚ) (length : ℕ) (target : ℕ)
    (config : ShapeConfig) :
    List.Chain' (· ≤ ·)
      ((buildTargetCumulativeTimeline jsSin length (target : ℚ) config).map
        SeriesPoint.value) := by
  by_cases hL : length ≤ 1
  · unfold buildTargetCumulativeTimeline
    rw [if_pos hL]
    simp
  · obtain ⟨n, rfl⟩ : ∃ n, length = n + 1 := ⟨length - 1, by omega⟩
    have hn : 1 ≤ n := by omega
    rw [buildValues_eq jsSin (n + 1) (target : ℚ) config hL]
    rw [List.chain'_map, List.chain'_range_succ]
    intro m hm
    -- abbreviations
    have hσ : 0 ≤ incrementScale jsSin (n + 1) (target : ℚ) config := by
      unfold incrementScale
      split_ifs with h
      · exact div_nonneg (Nat.cast_nonneg _) h.le
      · exact le_rfl
    have hstep : ∀ i : ℕ,
        ((List.range i).map (fun k => increment jsSin (n + 1) config k *
          incrementScale jsSin (n + 1) (target : ℚ) config)).sum
        ≤ ((List.range (i + 1)).map (fun k => increment jsSin (n + 1) config k *
          incrementScale jsSin (n + 1) (target : ℚ) config)).sum := by
      intro i
      rw [List.range_succ, List.map_append, List.sum_append]
      have h1 : (0 : ℚ) ≤ increment jsSin (n + 1) config i *
          incrementScale jsSin (n + 1) (target : ℚ) config :=
        mul_nonneg (le_trans zero_le_one (one_le_increment jsSin (n + 1) config i)) hσ
      simp only [List.map_cons, List.map_nil, List.sum_cons, List.sum_nil]
      linarith
    have hmono : ∀ i j : ℕ, i ≤ j →
        ((List.range i).map (fun k => increment jsSin (n + 1) config k *
          incrementScale jsSin (n + 1) (target : ℚ) config)).sum
        ≤ ((List.range j).map (fun k => increment jsSin (n + 1) config k *
          incrementScale jsSin (n + 1) (target : ℚ) config)).sum := by
      intro i j hij
      induction hij with
      | refl => exact le_rfl
      | step h ih => exact le_trans ih (hstep _)
    have hTle : ∀ i : ℕ, i ≤ n →
        ((List.range i).map (fun k => increment jsSin (n + 1) config k *
          incrementScale jsSin (n + 1) (target : ℚ) config)).sum ≤ (target : ℚ) := by
      intro i hi
      refine le_trans (hmono i n hi) ?_
      have hTn : ((List.range n).map (fun k => increment jsSin (n + 1) config k *
          incrementScale jsSin (n + 1) (target : ℚ) config)).sum
          = incrementsSum jsSin (n + 1) config *
            incrementScale jsSin (n + 1) (target : ℚ) config := by
        rw [List.sum_map_mul_right]
        simp [incrementsSum, incrementsList]
      rw [hTn]
      unfold incrementScale
      split_ifs with h
      · rw [mul_div_cancel₀ _ (ne_of_gt h)]
      · simp
    by_cases hm0 : m = 0
    · subst hm0
      simp only [if_pos rfl, if_neg (Nat.succ_ne_zero 0)]
      split_ifs <;> first
        | exact Nat.cast_nonneg _
        | exact le_max_left _ _
    · have hm1 : ¬ m + 1 = 0 := Nat.succ_ne_zero m
      rw [if_neg hm0, if_neg hm1]
      have hmn : ¬ m = n + 1 - 1 := by omega
      rw [if_neg hmn]
      by_cases hlast : m + 1 = n + 1 - 1
      · rw [if_pos hlast]
        refine max_le (Nat.cast_nonneg _) ?_
        have h1 : jround (((List.range m).map (fun k => increment jsSin (n + 1) config k *
            incrementScale jsSin (n + 1) (target : ℚ) config)).sum) ≤ jround ((target : ℕ) : ℚ) :=
          jround_mono (hTle m (by omega))
        rw [jround_natCast] at h1
        exact_mod_cast h1
      · rw [if_neg hlast]
        exact max_le_max le_rfl (by exact_mod_cast Int.cast_le.mpr (jround_mono (hstep m)))

/-- C9: for every length ≥ 1 and tick interval ≥ 1 the tick-offset selection
emits exactly the multiples of the interval below the length, and the final
index length-1 is always present (appended whenever the stepped loop did not
already end there); concretely, for length 68, epoch 2025-11-01 and interval 7
the first emitted tick is index 0 labeled 2025-11-01 and index 67 is
emitted. -/
theorem c9_tick_indices :
    (∀ len t : ℕ, 1 ≤ len → 1 ≤ t →
      ((∀ k : ℕ, k * t < len → k * t ∈ tickOffsets len t) ∧
        (len - 1) ∈ tickOffsets len t ∧
        ∀ i ∈ tickOffsets len t, (∃ k : ℕ, i = k * t ∧ i < len) ∨ i = len - 1))
    ∧ (xAxisTicks 68 7 timelineStart).head? = some ⟨0, ("2025-11-01")⟩
    ∧ 67 ∈ (xAxisTicks 68 7 timelineStart).map AxisTick.index := by
  refine ⟨?_, ?_, ?_⟩
  · intro len t hlen ht
    refine ⟨?_, ?_, ?_⟩
    · intro k hk
      simp only [tickOffsets]
      split_ifs with hcond
      · exact List.mem_append_left _ (tickOffsets_base_mem len t k ht hlen hk)
      · exact tickOffsets_base_mem len t k ht hlen hk
    · simp only [tickOffsets]
      split_ifs with hcond
      · exact List.mem_append_right _ (by simp)
      · have h2 : (List.range' 0 ((len + t - 1) / t) t).getLast? = some (len - 1) := by
          by_contra hne
          exact hcond ⟨by omega, hne⟩
        exact mem_of_getLast?_eq h2
    · intro i hi
      simp only [tickOffsets] at hi
      have hbase : i ∈ List.range' 0 ((len + t - 1) / t) t →
          (∃ k : ℕ, i = k * t ∧ i < len) ∨ i = len - 1 := by
        intro hib
        obtain ⟨j, hj, rfl⟩ := List.mem_range'.mp hib
        left
        refine ⟨j, by ring, ?_⟩
        have := tickOffsets_base_lt len t j ht hlen hj
        omega
      split_ifs at hi with hcond
      · rcases List.mem_append.mp hi with hib | hlast
        · exact hbase hib
        · right
          simpa using hlast
      · exact hbase hi
  · rfl
  · decide

/-- Witness for C9 at the spec's concrete labeling scenario. -/
theorem c9_tick_indices_witness :
    (0 * 7) ∈ tickOffsets 68 7 ∧ (68 - 1) ∈ tickOffsets 68 7 :=
  ⟨((c9_tick_indices.1 68 7 (by norm_num) (by norm_num)).1) 0 (by norm_num),
   ((c9_tick_indices.1 68 7 (by norm_num) (by norm_num)).2.1)⟩
